import Mathlib

/-!
Verification of the socket based log relay of this repository:
`socket_tui.py` (the `SocketTui` listener with its `handle_client`
connection handler and `start_server` accept loop) and
`send_tui_message.py` (the `send_message` one shot sender).

The embedding is shallow: byte strings are `List Nat` (each element a
byte value), the observable log sink is a `List String` of display
lines in append order, and each handler is a pure function from its
input events (the chunks its reads deliver and the way the stream
ends) to the log lines it writes.
-/

namespace SocketRelay

/-- The Unicode replacement character U+FFFD, produced by
`bytes.decode('utf-8', errors='replace')` for invalid byte sequences. -/
def repl : Char := Char.ofNat 0xFFFD

/-- UTF-8 decoding with replacement, as CPython's
`bytes.decode('utf-8', errors='replace')`, processing the current byte
`b` against the remaining bytes `rest`: each maximal subpart of an
ill-formed sequence becomes one replacement character, valid sequences
decode to their scalar value, and truncated sequences at end of input
become one replacement character.  Total: it never fails. -/
def decodeGo (b : Nat) (rest : List Nat) : List Char :=
  if b < 0x80 then
    Char.ofNat b :: (match rest with | [] => [] | n :: r => decodeGo n r)
  else if b < 0xC2 then
    repl :: (match rest with | [] => [] | n :: r => decodeGo n r)
  else if b < 0xE0 then
    match rest with
    | [] => [repl]
    | c1 :: rest1 =>
      if 0x80 ≤ c1 ∧ c1 ≤ 0xBF then
        Char.ofNat ((b - 0xC0) * 0x40 + (c1 - 0x80)) ::
          (match rest1 with | [] => [] | n :: r => decodeGo n r)
      else repl :: decodeGo c1 rest1
  else if b < 0xF0 then
    let lo1 := if b = 0xE0 then 0xA0 else 0x80
    let hi1 := if b = 0xED then 0x9F else 0xBF
    match rest with
    | [] => [repl]
    | c1 :: rest1 =>
      if lo1 ≤ c1 ∧ c1 ≤ hi1 then
        match rest1 with
        | [] => [repl]
        | c2 :: rest2 =>
          if 0x80 ≤ c2 ∧ c2 ≤ 0xBF then
            Char.ofNat ((b - 0xE0) * 0x1000 + (c1 - 0x80) * 0x40 + (c2 - 0x80)) ::
              (match rest2 with | [] => [] | n :: r => decodeGo n r)
          else repl :: decodeGo c2 rest2
      else repl :: decodeGo c1 rest1
  else if b < 0xF5 then
    let lo1 := if b = 0xF0 then 0x90 else 0x80
    let hi1 := if b = 0xF4 then 0x8F else 0xBF
    match rest with
    | [] => [repl]
    | c1 :: rest1 =>
      if lo1 ≤ c1 ∧ c1 ≤ hi1 then
        match rest1 with
        | [] => [repl]
        | c2 :: rest2 =>
          if 0x80 ≤ c2 ∧ c2 ≤ 0xBF then
            match rest2 with
            | [] => [repl]
            | c3 :: rest3 =>
              if 0x80 ≤ c3 ∧ c3 ≤ 0xBF then
                Char.ofNat ((b - 0xF0) * 0x40000 + (c1 - 0x80) * 0x1000 +
                    (c2 - 0x80) * 0x40 + (c3 - 0x80)) ::
                  (match rest3 with | [] => [] | n :: r => decodeGo n r)
              else repl :: decodeGo c3 rest3
          else repl :: decodeGo c2 rest2
      else repl :: decodeGo c1 rest1
  else repl :: (match rest with | [] => [] | n :: r => decodeGo n r)

/-- UTF-8 decoding with replacement over a whole byte string. -/
def decodeUtf8ReplaceAux : List Nat → List Char
  | [] => []
  | b :: rest => decodeGo b rest

/-- `bytes.decode('utf-8', errors='replace')` as a `String`. -/
def decodeUtf8Replace (bytes : List Nat) : String :=
  ⟨decodeUtf8ReplaceAux bytes⟩

/-- Code points that Python's `str.isspace` reports as whitespace;
`str.strip()` with no argument strips exactly these. -/
def pySpaceCodes : List Nat :=
  [0x09, 0x0A, 0x0B, 0x0C, 0x0D, 0x1C, 0x1D, 0x1E, 0x1F, 0x20,
   0x85, 0xA0, 0x1680,
   0x2000, 0x2001, 0x2002, 0x2003, 0x2004, 0x2005, 0x2006, 0x2007,
   0x2008, 0x2009, 0x200A, 0x2028, 0x2029, 0x202F, 0x205F, 0x3000]

/-- Whether a character is Python whitespace. -/
def isPySpace (c : Char) : Bool := pySpaceCodes.contains c.toNat

/-- Python's `str.strip()`: remove whitespace from both ends. -/
def pyStrip (s : String) : String :=
  ⟨((s.data.dropWhile isPySpace).reverse.dropWhile isPySpace).reverse⟩

/-- Modelled from the spec: the Log Sink's `append(text)` operation
(the `Log.write_line` widget call of the third party TUI library,
which is not part of this repository): it adds one immutable Log Entry
at the end of the ordered sequence of display lines. -/
def write_line (log : List String) (text : String) : List String :=
  log ++ [text]

/-- How a connection's read loop ends: a zero length read
(end of stream), an exception raised during `reader.read` whose
`str(e)` is `desc`, or cancellation of the handler task. -/
inductive ConnEnd
  | eof
  | err (desc : String)
  | cancelled
deriving DecidableEq

/-- The events one accepted connection delivers to `handle_client`:
its peer address (the displayed form of `writer.get_extra_info`),
the successive byte chunks returned by `reader.read(1024)`, and the
way the stream ends. -/
structure ConnInput where
  addr : String
  chunks : List (List Nat)
  ending : ConnEnd
deriving DecidableEq

/-- What one run of `handle_client` produces: the log sink after the
handler's writes, whether `writer.close()` was reached (the `finally`
block), and the exception, if any, that propagates out of the
coroutine. -/
structure HandlerResult where
  log : List String
  writerClosed : Bool
  raised : Option String
deriving DecidableEq

/-- The text `data.decode('utf-8', errors='replace').strip()` computed
by the handler for one read chunk. -/
def chunkMessage (chunk : List Nat) : String :=
  pyStrip (decodeUtf8Replace chunk)

/-- One iteration of the handler's read loop body on a data chunk:
decode with replacement, strip, and `write_line` the address tagged
message when it is non empty (`if message:`). -/
def handleStep (addr : String) (log : List String) (chunk : List Nat) : List String :=
  let message := chunkMessage chunk
  if message = "" then log else write_line log (addr ++ ": " ++ message)

/-- `SocketTui.handle_client`: writes the connection line, runs the
read loop over the delivered chunks, writes an error line when the
loop ends by exception (`except Exception`), and in all cases runs the
`finally` block: the closed line, then releasing the writer.  Only
cancellation (`CancelledError`, not an `Exception` subclass) escapes
the coroutine. -/
def handle_client (inp : ConnInput) (log : List String) : HandlerResult :=
  let log := write_line log ("Connection from " ++ inp.addr)
  let log := inp.chunks.foldl (handleStep inp.addr) log
  let log := match inp.ending with
    | ConnEnd.eof => log
    | ConnEnd.cancelled => log
    | ConnEnd.err d => write_line log ("Error: " ++ d)
  { log := write_line log ("Closed connection from " ++ inp.addr)
    writerClosed := true
    raised := match inp.ending with
      | ConnEnd.cancelled => some "CancelledError"
      | _ => none }

/-- Whether `asyncio.start_server` binds port 9000 successfully or
raises `OSError` with message `desc`. -/
inductive BindResult
  | ok
  | oserr (desc : String)
deriving DecidableEq

/-- `SocketTui.start_server`: on bind failure writes the single error
line; on success writes the listening line and serves the accepted
connections, each through `handle_client`.  The sequential fold
records the log contributions; concurrent interleavings permute
complete lines only, never the content of a handler's writes. -/
def start_server (bind : BindResult) (conns : List ConnInput) (log : List String) :
    List String :=
  match bind with
  | BindResult.oserr d => write_line log ("Error starting server: " ++ d)
  | BindResult.ok =>
      conns.foldl (fun lg c => (handle_client c lg).log)
        (write_line log "Listening on 0.0.0.0:9000...")

/-- The entries the read loop contributes for one chunk: none when the
stripped message is empty, otherwise the single tagged line. -/
def chunkEntries (addr : String) (chunk : List Nat) : List String :=
  if chunkMessage chunk = "" then [] else [addr ++ ": " ++ chunkMessage chunk]

/-- All data entries a connection's chunks contribute, in read order. -/
def dataEntries (addr : String) (chunks : List (List Nat)) : List String :=
  chunks.flatMap (chunkEntries addr)

/-- Default host of `send_message`. -/
def defaultHost : String := "localhost"

/-- Default port of `send_message`. -/
def defaultPort : Nat := 9000

/-- UTF-8 encoding of one character, as `str.encode('utf-8')`. -/
def utf8Bytes (c : Char) : List Nat :=
  let n := c.toNat
  if n < 0x80 then [n]
  else if n < 0x800 then [0xC0 + n / 0x40, 0x80 + n % 0x40]
  else if n < 0x10000 then
    [0xE0 + n / 0x1000, 0x80 + (n / 0x40) % 0x40, 0x80 + n % 0x40]
  else
    [0xF0 + n / 0x40000, 0x80 + (n / 0x1000) % 0x40,
     0x80 + (n / 0x40) % 0x40, 0x80 + n % 0x40]

/-- `message.encode('utf-8')`. -/
def encodeUtf8 (s : String) : List Nat :=
  s.data.flatMap utf8Bytes

/-- Python's `message.endswith('\n')`: the last character is a
newline. -/
def pyEndsWithNewline (s : String) : Bool :=
  s.data.getLast? = some '\n'

/-- How the sender's socket operations go: the connection and send
succeed, `connect` raises `ConnectionRefusedError`, or some other
exception with `str(e) = desc` is raised. -/
inductive ConnectResult
  | ok
  | refused
  | failed (desc : String)
deriving DecidableEq

/-- What one call of `send_message` produces: the bytes written by
`sendall` (if reached), the single line printed, and whether an
exception propagates to the caller. -/
structure SendResult where
  sentBytes : Option (List Nat)
  output : String
  raised : Bool
deriving DecidableEq

/-- `send_message` of `send_tui_message.py`: on success appends a
trailing newline if absent, sends the encoded message in full and
prints the confirmation; `ConnectionRefusedError` and any other
exception are caught and printed, never re-raised. -/
def send_message (conn : ConnectResult) (host : String) (port : Nat)
    (message : String) : SendResult :=
  match conn with
  | ConnectResult.refused =>
      { sentBytes := none
        output := "Error: Could not connect to " ++ host ++ ":" ++ toString port ++
          ". Is the TUI running?"
        raised := false }
  | ConnectResult.failed d =>
      { sentBytes := none, output := "Error: " ++ d, raised := false }
  | ConnectResult.ok =>
      let message := if pyEndsWithNewline message then message else message ++ "\n"
      { sentBytes := some (encodeUtf8 message)
        output := "Sent: " ++ pyStrip message
        raised := false }


/-! ### Structural lemmas about the handler -/

/-- The read loop over a chunk list appends exactly the data entries of
those chunks, in read order. -/
theorem foldl_handleStep (addr : String) (chunks : List (List Nat)) (log : List String) :
    chunks.foldl (handleStep addr) log = log ++ dataEntries addr chunks := by
  induction chunks generalizing log with
  | nil => simp [dataEntries]
  | cons c cs ih =>
      simp only [List.foldl_cons, dataEntries, List.flatMap_cons]
      rw [ih]
      by_cases h : chunkMessage c = ""
      · simp [handleStep, chunkEntries, h, dataEntries]
      · simp [handleStep, chunkEntries, h, dataEntries, write_line, List.append_assoc]

/-- A run that ends with a zero length read writes the connection line,
the data entries, and the closed line, closes the writer, and raises
nothing. -/
theorem handle_client_eof (addr : String) (chunks : List (List Nat)) (log : List String) :
    handle_client ⟨addr, chunks, ConnEnd.eof⟩ log =
      ⟨log ++ ("Connection from " ++ addr) ::
        (dataEntries addr chunks ++ ["Closed connection from " ++ addr]),
       true, none⟩ := by
  simp [handle_client, write_line, foldl_handleStep, List.append_assoc]

/-- A run that ends with a read exception additionally writes the error
line before the closed line; the exception is swallowed. -/
theorem handle_client_err (addr : String) (chunks : List (List Nat)) (d : String)
    (log : List String) :
    handle_client ⟨addr, chunks, ConnEnd.err d⟩ log =
      ⟨log ++ ("Connection from " ++ addr) ::
        (dataEntries addr chunks ++ ["Error: " ++ d, "Closed connection from " ++ addr]),
       true, none⟩ := by
  simp [handle_client, write_line, foldl_handleStep, List.append_assoc]

/-- A cancelled run still writes the closed line and closes the writer;
only the cancellation signal escapes. -/
theorem handle_client_cancelled (addr : String) (chunks : List (List Nat))
    (log : List String) :
    handle_client ⟨addr, chunks, ConnEnd.cancelled⟩ log =
      ⟨log ++ ("Connection from " ++ addr) ::
        (dataEntries addr chunks ++ ["Closed connection from " ++ addr]),
       true, some "CancelledError"⟩ := by
  simp [handle_client, write_line, foldl_handleStep, List.append_assoc]

/-! ### Claims C1, C2, C3: chunk granularity, not line splitting -/

/-- Claim C1 counterexample: the single chunk `"a\nb\n"` contains two
newline characters, but the handler appends one entry for it, not two:
the code keeps no pending buffer and never splits on newlines. -/
theorem two_newline_chunk_not_two_entries :
    ¬ ((dataEntries "A" [[97, 10, 98, 10]]).length = 2) := by decide

/-- Claim C1 (amended): the handler appends entries per read chunk, in
read order: for each chunk at most one entry, the chunk's decoded text
with leading and trailing whitespace stripped and tagged with the peer
address, none when the stripped text is empty.  Newlines do not split
a chunk: the two newline chunk `"a\nb\n"` yields the single entry
`"a\nb"`, so the emitted entries depend on the read partition. -/
theorem per_chunk_entry_granularity (addr : String) (chunks : List (List Nat))
    (log : List String) :
    (handle_client ⟨addr, chunks, ConnEnd.eof⟩ log).log =
      log ++ ("Connection from " ++ addr) ::
        (dataEntries addr chunks ++ ["Closed connection from " ++ addr]) ∧
    (∀ c : List Nat, (chunkEntries addr c).length ≤ 1) ∧
    dataEntries addr [[97, 10, 98, 10]] = [addr ++ ": " ++ "a\nb"] := by
  refine ⟨by rw [handle_client_eof], fun c => ?_, ?_⟩
  · by_cases h : chunkMessage c = "" <;> simp [chunkEntries, h]
  · have h : chunkMessage [97, 10, 98, 10] = "a\nb" := rfl
    simp [dataEntries, chunkEntries, h]

/-- Claim C2 counterexample: for the single write `"a\nb\nc"` the sink
does not gain the two entries `a` then `b`: the whole stripped chunk is
emitted as one entry and the trailing `c` is not discarded. -/
theorem unterminated_suffix_not_discarded :
    ¬ (dataEntries "A" [[97, 10, 98, 10, 99]] = ["A: a", "A: b"]) := by decide

/-- Claim C2 (amended): a client that sends `"a\nb\nc"` in one write
and disconnects produces exactly one data entry, whose text is the
whole chunk `"a\nb\nc"` — the unterminated trailing byte `c` is
included in the entry, not discarded. -/
theorem abc_single_entry :
    handle_client ⟨"A", [[97, 10, 98, 10, 99]], ConnEnd.eof⟩ [] =
      ⟨["Connection from A", "A: a\nb\nc", "Closed connection from A"],
       true, none⟩ := rfl

/-- Claim C3 counterexample: a connection that sends the single byte
`"\n"` produces no data entry at all: the stripped message is empty and
the `if message:` guard suppresses it. -/
theorem empty_line_no_entry :
    ¬ ((dataEntries "A" [[10]]).length = 1) := by decide

/-- Claim C3 (amended): a connection that sends exactly `"\n"` adds no
data entry to the sink: empty text after stripping is suppressed, so
the run writes only the connection line and the closed line. -/
theorem newline_only_chunk_suppressed (addr : String) (log : List String) :
    (handle_client ⟨addr, [[10]], ConnEnd.eof⟩ log).log =
      log ++ ["Connection from " ++ addr, "Closed connection from " ++ addr] := by
  rw [handle_client_eof]
  have h : chunkMessage [10] = "" := rfl
  simp [dataEntries, chunkEntries, h]

/-! ### Claims C4, C5: the sender -/

/-- Stripping is unaffected by a trailing newline. -/
theorem pyStrip_append_newline (s : String) : pyStrip (s ++ "\n") = pyStrip s := by
  unfold pyStrip
  rw [String.data_append]
  show String.mk (((s.data ++ ['\n']).dropWhile isPySpace).reverse.dropWhile isPySpace).reverse
    = _
  rw [List.dropWhile_append]
  by_cases h : (s.data.dropWhile isPySpace).isEmpty
  · rw [List.isEmpty_iff] at h
    simp [h, List.dropWhile]
  · simp only [h, if_false, Bool.false_eq_true]
    rw [List.reverse_append]
    show String.mk (List.dropWhile isPySpace
      ('\n' :: (s.data.dropWhile isPySpace).reverse)).reverse = _
    rw [List.dropWhile_cons_of_pos (by decide)]

/-- Appending `"\n"` makes `endswith('\n')` hold. -/
theorem pyEndsWithNewline_append (s : String) : pyEndsWithNewline (s ++ "\n") = true := by
  simp only [pyEndsWithNewline, String.data_append, decide_eq_true_eq]
  show (s.data ++ ['\n']).getLast? = some '\n'
  exact List.getLast?_concat s.data

/-- Claim C4: on a successful connection `send_message` appends a
trailing newline exactly when the message lacks one, sends the whole
newline terminated encoding, prints `Sent: ` followed by the stripped
message, and raises nothing; the scenario input `"hello"` prints
`Sent: hello` and its bytes, received as one chunk by the relay, add
the single entry `hello` tagged with the sender's address. -/
theorem send_appends_newline_and_confirms (message addr : String) (log : List String) :
    (send_message ConnectResult.ok defaultHost defaultPort message).sentBytes =
      some (encodeUtf8
        (if pyEndsWithNewline message then message else message ++ "\n")) ∧
    pyEndsWithNewline
      (if pyEndsWithNewline message then message else message ++ "\n") = true ∧
    (send_message ConnectResult.ok defaultHost defaultPort message).output =
      "Sent: " ++ pyStrip message ∧
    (send_message ConnectResult.ok defaultHost defaultPort message).raised = false ∧
    (send_message ConnectResult.ok defaultHost defaultPort "hello").output =
      "Sent: hello" ∧
    handleStep addr log (encodeUtf8 "hello\n") = log ++ [addr ++ ": " ++ "hello"] := by
  refine ⟨?_, ?_, ?_, ?_, rfl, ?_⟩
  · by_cases h : pyEndsWithNewline message <;> simp [send_message, h]
  · by_cases h : pyEndsWithNewline message <;> simp [h, pyEndsWithNewline_append]
  · by_cases h : pyEndsWithNewline message <;>
      simp [send_message, h, pyStrip_append_newline]
  · by_cases h : pyEndsWithNewline message <;> simp [send_message, h]
  · have hm : chunkMessage (encodeUtf8 "hello\n") = "hello" := rfl
    simp [handleStep, hm, write_line]

/-- Claim C5: with the default host and port and no reachable listener,
`ConnectionRefusedError` is caught: the output is exactly the refusal
message for `localhost:9000`, nothing is sent, and nothing is raised. -/
theorem send_refused_output (message : String) :
    send_message ConnectResult.refused defaultHost defaultPort message =
      ⟨none, "Error: Could not connect to localhost:9000. Is the TUI running?",
       false⟩ := rfl

/-! ### Distinctness of the handler's entry kinds -/

/-- The connection line never equals the closed line: the texts have
different lengths. -/
theorem conn_ne_closed (addr : String) :
    "Connection from " ++ addr ≠ "Closed connection from " ++ addr := by
  intro h
  have hc := congrArg (fun s : String => s.data.length) h
  simp only [String.data_append, List.length_append] at hc
  have h1 : ("Connection from " : String).data.length = 16 := by decide
  have h2 : ("Closed connection from " : String).data.length = 23 := by decide
  rw [h1, h2] at hc
  omega

/-- A tagged data entry never equals the closed line: it contains at
least one more colon. -/
theorem dataEntry_ne_closed (addr m : String) :
    addr ++ ": " ++ m ≠ "Closed connection from " ++ addr := by
  intro h
  have hc := congrArg (fun s : String => s.data.count ':') h
  simp only [String.data_append, List.count_append] at hc
  have h1 : (": " : String).data.count ':' = 1 := by decide
  have h2 : ("Closed connection from " : String).data.count ':' = 0 := by decide
  rw [h1, h2] at hc
  omega

/-- The error line never equals the closed line: the first characters
differ. -/
theorem errEntry_ne_closed (d addr : String) :
    "Error: " ++ d ≠ "Closed connection from " ++ addr := by
  intro h
  have hc := congrArg (fun s : String => s.data.head?) h
  have h1 : ("Error: " ++ d).data.head? = some 'E' := by
    rw [String.data_append]; rfl
  have h2 : ("Closed connection from " ++ addr).data.head? = some 'C' := by
    rw [String.data_append]; rfl
  simp only [h1, h2] at hc
  exact absurd hc (by decide)

/-- Every data entry of a connection is its address, a colon separator,
and some message text. -/
theorem mem_dataEntries (addr e : String) (chunks : List (List Nat))
    (h : e ∈ dataEntries addr chunks) : ∃ m, e = addr ++ ": " ++ m := by
  unfold dataEntries at h
  rw [List.mem_flatMap] at h
  obtain ⟨c, _, hc⟩ := h
  unfold chunkEntries at hc
  by_cases hm : chunkMessage c = ""
  · simp [hm] at hc
  · simp only [hm, if_neg, List.mem_singleton, if_false] at hc
    exact ⟨chunkMessage c, by simp_all⟩

/-- The closed line never occurs among a connection's data entries. -/
theorem count_closed_dataEntries (addr : String) (chunks : List (List Nat)) :
    (dataEntries addr chunks).count ("Closed connection from " ++ addr) = 0 := by
  rw [List.count_eq_zero]
  intro hmem
  obtain ⟨m, hm⟩ := mem_dataEntries addr _ chunks hmem
  exact dataEntry_ne_closed addr m hm.symm

/-! ### Claims C6, C7: termination and error isolation -/

/-- Claim C6: on every termination path — end of stream, read error, or
cancellation — the handler closes the writer, the entries it appended
contain the closed line exactly once, and that closed line is the very
last entry of the log, so nothing later in this run is attributed to
the connection. -/
theorem closed_entry_exactly_once (inp : ConnInput) (log : List String) :
    (handle_client inp log).writerClosed = true ∧
    ((handle_client inp log).log.drop log.length).count
      ("Closed connection from " ++ inp.addr) = 1 ∧
    (handle_client inp log).log.getLast? =
      some ("Closed connection from " ++ inp.addr) := by
  obtain ⟨addr, chunks, ending⟩ := inp
  have hbc : (("Connection from " ++ addr) ==
      ("Closed connection from " ++ addr)) = false :=
    beq_eq_false_iff_ne.mpr (conn_ne_closed addr)
  cases ending with
  | eof =>
      simp only [handle_client_eof]
      refine ⟨trivial, ?_, ?_⟩
      · rw [List.drop_left]
        simp [List.count_cons, List.count_append, count_closed_dataEntries, hbc]
      · rw [← List.cons_append, ← List.append_assoc]
        exact List.getLast?_concat _
  | err d =>
      have hbe : (("Error: " ++ d) == ("Closed connection from " ++ addr)) = false :=
        beq_eq_false_iff_ne.mpr (errEntry_ne_closed d addr)
      simp only [handle_client_err]
      refine ⟨trivial, ?_, ?_⟩
      · rw [List.drop_left]
        simp [List.count_cons, List.count_append, count_closed_dataEntries, hbc, hbe]
      · rw [show ["Error: " ++ d, "Closed connection from " ++ addr] =
            ["Error: " ++ d] ++ ["Closed connection from " ++ addr] from rfl]
        rw [← List.append_assoc, ← List.cons_append, ← List.append_assoc]
        exact List.getLast?_concat _
  | cancelled =>
      simp only [handle_client_cancelled]
      refine ⟨trivial, ?_, ?_⟩
      · rw [List.drop_left]
        simp [List.count_cons, List.count_append, count_closed_dataEntries, hbc]
      · rw [← List.cons_append, ← List.append_assoc]
        exact List.getLast?_concat _

/-- Claim C7: an exception raised during the read loop is caught by the
handler: nothing propagates out of the coroutine, the log gains the
single `Error:` status line tagged to that connection followed by its
closed line, and a subsequent connection served by the same listener is
handled exactly as if no error had happened. -/
theorem read_error_isolated (addr : String) (chunks : List (List Nat)) (d : String)
    (log : List String) :
    (handle_client ⟨addr, chunks, ConnEnd.err d⟩ log).raised = none ∧
    (handle_client ⟨addr, chunks, ConnEnd.err d⟩ log).log =
      log ++ ("Connection from " ++ addr) ::
        (dataEntries addr chunks ++
          ["Error: " ++ d, "Closed connection from " ++ addr]) ∧
    (∀ (addr2 : String) (chunks2 : List (List Nat)) (log2 : List String),
      start_server BindResult.ok
          [⟨addr, chunks, ConnEnd.err d⟩, ⟨addr2, chunks2, ConnEnd.eof⟩] log2 =
        (log2 ++ "Listening on 0.0.0.0:9000..." ::
          ("Connection from " ++ addr) ::
            (dataEntries addr chunks ++
              ["Error: " ++ d, "Closed connection from " ++ addr])) ++
          ("Connection from " ++ addr2) ::
            (dataEntries addr2 chunks2 ++ ["Closed connection from " ++ addr2])) := by
  refine ⟨by simp [handle_client_err], by simp [handle_client_err], ?_⟩
  intro addr2 chunks2 log2
  simp [start_server, handle_client_err, handle_client_eof, write_line,
    List.append_assoc]

/-! ### Claim C8: decoding never raises -/

/-- Claim C8: an invalid start byte decodes to the replacement
character rather than raising, and a handler run over any data chunks
raises nothing and never reaches the exception branch: its log is the
connection line, the data entries, and the closed line, with no
`Error:` status line. -/
theorem decode_replace_never_raises (b : Nat) (h1 : 0x80 ≤ b) (h2 : b < 0xC2) :
    decodeUtf8Replace [b] = "\uFFFD" ∧
    ∀ (addr : String) (chunks : List (List Nat)) (log : List String),
      (handle_client ⟨addr, chunks, ConnEnd.eof⟩ log).raised = none ∧
      (handle_client ⟨addr, chunks, ConnEnd.eof⟩ log).log =
        log ++ ("Connection from " ++ addr) ::
          (dataEntries addr chunks ++ ["Closed connection from " ++ addr]) := by
  constructor
  · show String.mk (decodeGo b []) = _
    unfold decodeGo
    rw [if_neg (by omega), if_pos h2]
    rfl
  · intro addr chunks log
    exact ⟨by simp [handle_client_eof], by simp [handle_client_eof]⟩

/-- Witness for claim C8 at the concrete invalid byte `0x80`. -/
theorem decode_replace_never_raises_witness :
    decodeUtf8Replace [0x80] = "\uFFFD" ∧
    (handle_client ⟨"A", [[0xFF]], ConnEnd.eof⟩ []).raised = none :=
  ⟨(decode_replace_never_raises 0x80 (by decide) (by decide)).1,
   ((decode_replace_never_raises 0x80 (by decide) (by decide)).2 "A" [[0xFF]] []).1⟩

/-! ### Claim C9: the sink is append only -/

/-- Every run of `handle_client` only appends to the log it is given. -/
theorem handle_client_extends (inp : ConnInput) (log : List String) :
    ∃ t, (handle_client inp log).log = log ++ t := by
  obtain ⟨addr, chunks, ending⟩ := inp
  cases ending with
  | eof =>
      refine ⟨("Connection from " ++ addr) ::
        (dataEntries addr chunks ++ ["Closed connection from " ++ addr]), ?_⟩
      simp [handle_client_eof]
  | err d =>
      refine ⟨("Connection from " ++ addr) ::
        (dataEntries addr chunks ++
          ["Error: " ++ d, "Closed connection from " ++ addr]), ?_⟩
      simp [handle_client_err]
  | cancelled =>
      refine ⟨("Connection from " ++ addr) ::
        (dataEntries addr chunks ++ ["Closed connection from " ++ addr]), ?_⟩
      simp [handle_client_cancelled]

/-- The serve loop over any connection list only appends. -/
theorem serve_loop_extends (conns : List ConnInput) (log : List String) :
    ∃ t, conns.foldl (fun lg c => (handle_client c lg).log) log = log ++ t := by
  induction conns generalizing log with
  | nil => exact ⟨[], by simp⟩
  | cons c cs ih =>
      obtain ⟨t1, ht1⟩ := handle_client_extends c log
      obtain ⟨t2, ht2⟩ := ih (handle_client c log).log
      refine ⟨t1 ++ t2, ?_⟩
      simp only [List.foldl_cons]
      rw [ht2, ht1, List.append_assoc]

/-- Claim C9: every operation of the relay — a full handler run, the
listener with either bind outcome, and each single `write_line` — only
appends to the Log Sink: the previous entries stay, unchanged and in
order, as a prefix of the new log. -/
theorem log_sink_append_only :
    (∀ (inp : ConnInput) (log : List String),
      ∃ t, (handle_client inp log).log = log ++ t) ∧
    (∀ (bind : BindResult) (conns : List ConnInput) (log : List String),
      ∃ t, start_server bind conns log = log ++ t) ∧
    (∀ (log : List String) (text : String), write_line log text = log ++ [text]) := by
  refine ⟨handle_client_extends, ?_, fun log text => rfl⟩
  intro bind conns log
  cases bind with
  | oserr d => exact ⟨_, rfl⟩
  | ok =>
      obtain ⟨t, ht⟩ :=
        serve_loop_extends conns (write_line log "Listening on 0.0.0.0:9000...")
      refine ⟨"Listening on 0.0.0.0:9000..." :: t, ?_⟩
      show conns.foldl (fun lg c => (handle_client c lg).log)
        (write_line log "Listening on 0.0.0.0:9000...") = _
      rw [ht]
      simp [write_line]

/-! ### Claim C10: whitespace only chunks are suppressed -/

/-- A string whose characters are all whitespace strips to empty. -/
theorem pyStrip_eq_empty (s : String) (h : s.data.all isPySpace = true) :
    pyStrip s = "" := by
  unfold pyStrip
  have hd : s.data.dropWhile isPySpace = [] := by
    rw [List.dropWhile_eq_nil_iff]
    intro x hx
    exact List.all_eq_true.mp h x hx
  rw [hd]
  rfl

/-- Claim C10: a read chunk whose decoded text is all whitespace adds
no entry, and in general each chunk yields at most one data entry:
exactly `chunkEntries`, which has length at most one. -/
theorem whitespace_chunk_suppressed (addr : String) (chunk : List Nat)
    (log : List String) :
    ((decodeUtf8Replace chunk).data.all isPySpace = true →
      handleStep addr log chunk = log) ∧
    (chunkEntries addr chunk).length ≤ 1 ∧
    handleStep addr log chunk = log ++ chunkEntries addr chunk := by
  refine ⟨?_, ?_, ?_⟩
  · intro h
    have hm : chunkMessage chunk = "" := pyStrip_eq_empty _ h
    simp [handleStep, hm]
  · by_cases hm : chunkMessage chunk = "" <;> simp [chunkEntries, hm]
  · by_cases hm : chunkMessage chunk = "" <;>
      simp [handleStep, chunkEntries, hm, write_line]

/-- Witness for claim C10 at the concrete whitespace chunk `"\n"`. -/
theorem whitespace_chunk_suppressed_witness :
    (decodeUtf8Replace [10]).data.all isPySpace = true ∧
    handleStep "A" [] [10] = [] :=
  ⟨by decide, (whitespace_chunk_suppressed "A" [10] []).1 (by decide)⟩

end SocketRelay
